import Mathlib

/-!
# Clinicx — formal model of the FIFO inventory allocation and
# prescription safety-check core

Shallow embedding of the inventory / prescription logic of the Clinicx
repository (`clinic_erp_system.py`, with the variant service classes in
`clinic_erp_part4.py`).  Dates are modelled as natural numbers (days);
`today` is passed explicitly where the source calls
`datetime.now().date()`.  Python strings that undergo text processing
(`.lower()`, `.strip()`, `.split(',')`, substring `in`) are modelled as
`List Char`; strings used only as opaque data (batch numbers, locations,
severities, …) stay `String`.

Database semantics: each service call runs inside one SQLAlchemy session
obtained from `get_db`, which closes the session at the request boundary
without committing; hence a call that raises before `db.commit()` leaves
the committed ledger unchanged, while every `db.commit()` it performed
earlier persists.  The embedding therefore threads the *committed* ledger:
a function returns the updated ledger exactly on the paths on which the
source reaches `db.commit()`, and returns its input ledger on the paths
that raise.
-/

namespace Clinicx

/-- `PrescriptionStatus` enum of `clinic_erp_system.py`
(billing/appointment statuses are out of scope). -/
inductive PrescriptionStatus
  | pending
  | dispensed
  | cancelled
deriving DecidableEq

/-- One row of the `inventory` table (`class Inventory` in
`clinic_erp_system.py`; `MedicineStock` in `clinic_erp_part1.py` has the
same fields).  `id` is the primary key; only the columns the allocation
logic touches are modelled. -/
structure Batch where
  id : Nat
  medicineId : Nat
  batchNumber : String
  quantity : Int
  expiryDate : Nat
  location : String
deriving DecidableEq

/-- The committed stock ledger: the rows of the inventory table. -/
abbrev Ledger := List Batch

/-- Sum of the `quantity` column over a list of rows. -/
def sumQty (l : List Batch) : Int := (l.map Batch.quantity).sum

/-- Row filter of the query in `InventoryService.dispense_medicine_fifo`
(and `InventoryManager.dispense_medicine_fifo`): same medicine, same
location, `quantity > 0`, `expiry_date > today`. -/
def availableBatch (today medId : Nat) (loc : String) (b : Batch) : Bool :=
  b.medicineId == medId && b.location == loc &&
    decide (0 < b.quantity) && decide (today < b.expiryDate)

/-- Row filter of the query in
`InventoryService.check_stock_availability`: same medicine,
`quantity > 0`, `expiry_date > today` — note: **no location filter**. -/
def stockCountedBatch (today medId : Nat) (b : Batch) : Bool :=
  b.medicineId == medId && decide (0 < b.quantity) && decide (today < b.expiryDate)

/-- Insert a row into a list sorted by `expiry_date` ascending,
before the first strictly larger key (a stable insertion). -/
def insertByExpiry (b : Batch) : List Batch → List Batch
  | [] => [b]
  | c :: cs =>
    if c.expiryDate < b.expiryDate then c :: insertByExpiry b cs
    else b :: c :: cs

/-- Deterministic model of SQL `ORDER BY expiry_date ASC`
(insertion sort; any non-decreasing arrangement of the filtered rows). -/
def sortByExpiry : List Batch → List Batch
  | [] => []
  | b :: bs => insertByExpiry b (sortByExpiry bs)

/-- The `inventory_items` / `available_stock` list both FIFO dispensers
start from: filtered rows ordered by expiry date ascending. -/
def availableBatches (today medId : Nat) (loc : String) (db : Ledger) : List Batch :=
  sortByExpiry (db.filter (availableBatch today medId loc))

/-- `InventoryService.check_stock_availability(db, medicine_id,
required_quantity)`: sum of non-expired positive quantities of the
medicine across **all** locations, compared with the requirement. -/
def check_stock_availability (today medId : Nat) (required : Int) (db : Ledger) : Bool :=
  decide (required ≤ sumQty (db.filter (stockCountedBatch today medId)))

/-- One entry of the list returned by the FIFO dispensers:
`{"batch_number": …, "quantity": …, "expiry_date": …}`. -/
structure Alloc where
  batchNumber : String
  quantity : Int
  expiryDate : Nat
deriving DecidableEq

/-- Sum of the quantities of an allocation list. -/
def allocSum (l : List Alloc) : Int := (l.map Alloc.quantity).sum

/-- Error taxonomy of the embedded operations, one constructor per
`raise` site, carrying exactly the data the source message carries. -/
inductive ErpError
  /-- `InventoryService`: `HTTPException(400, f"Insufficient stock.
  Required: {quantity}, Available: {quantity - remaining}")`. -/
  | insufficientStock (required available : Int)
  /-- `dispense_prescription`: `HTTPException(400, f"Insufficient stock
  for medicine ID: {item.medicine_id}")` from the pre-check. -/
  | insufficientForMedicine (medicineId : Nat)
  /-- `dispense_prescription`: `HTTPException(400, "Prescription already
  dispensed or cancelled")`. -/
  | invalidStateTransition
  /-- `InventoryManager`: `ValueError("No stock available")`. -/
  | noStockAvailable
  /-- `InventoryManager`: `ValueError(f"Insufficient stock. Available:
  {total_available}")` — carries only the available amount. -/
  | insufficientAvailable (available : Int)
deriving DecidableEq

/-- The mutation loop of `InventoryService.dispense_medicine_fifo`:
walk the expiry-ordered rows; stop when `remaining <= 0`; from each row
take the whole row or the remainder.  Returns the dispensed entries, the
rows the loop assigned a new quantity to, and the final `remaining`. -/
def fifoAlloc : List Batch → Int → List Alloc × List Batch × Int
  | [], r => ([], [], r)
  | b :: bs, r =>
    if r ≤ 0 then ([], [], r)
    else if r ≤ b.quantity then
      ([⟨b.batchNumber, r, b.expiryDate⟩], [{ b with quantity := b.quantity - r }], 0)
    else
      let (as, ts, rf) := fifoAlloc bs (r - b.quantity)
      (⟨b.batchNumber, b.quantity, b.expiryDate⟩ :: as,
        { b with quantity := 0 } :: ts, rf)

/-- Write the rows mutated by a dispenser loop back into the table
(rows are matched by primary key `id`). -/
def applyUpdates (db : Ledger) (updates : List Batch) : Ledger :=
  db.map fun b => ((updates.find? fun u => u.id == b.id).getD b)

namespace InventoryService

/-- `InventoryService.dispense_medicine_fifo(db, medicine_id, quantity,
location="Pharmacy")` of `clinic_erp_system.py`.  On success the source
reaches `db.commit()`; on insufficiency it raises after having mutated
only session objects, which the request boundary discards, so the
committed ledger is returned unchanged together with the error. -/
def dispense_medicine_fifo (today medId : Nat) (qty : Int) (loc : String)
    (db : Ledger) : Except ErpError (List Alloc) × Ledger :=
  let avail := availableBatches today medId loc db
  let out := fifoAlloc avail qty
  if 0 < out.2.2 then
    (.error (.insufficientStock qty (qty - out.2.2)), db)
  else
    (.ok out.1, applyUpdates db out.2.1)

end InventoryService

/-- The mutation loop of `InventoryManager.dispense_medicine_fifo`
(`clinic_erp_part4.py`): breaks only when `remaining_qty == 0`, and takes
`min(stock.quantity, remaining_qty)` from each row. -/
def fifoAlloc4 : List Batch → Int → List Alloc × List Batch
  | [], _ => ([], [])
  | b :: bs, r =>
    if r == 0 then ([], [])
    else
      let d := min b.quantity r
      let (as, ts) := fifoAlloc4 bs (r - d)
      (⟨b.batchNumber, d, b.expiryDate⟩ :: as,
        { b with quantity := b.quantity - d } :: ts)

namespace InventoryManager

/-- `InventoryManager.dispense_medicine_fifo(medicine_id, quantity,
location="pharmacy")` of `clinic_erp_part4.py`: raises
`ValueError("No stock available")` when the filtered list is empty,
raises with only the available total when it is short, and otherwise
mutates and commits. -/
def dispense_medicine_fifo (today medId : Nat) (qty : Int) (loc : String)
    (db : Ledger) : Except ErpError (List Alloc) × Ledger :=
  let avail := availableBatches today medId loc db
  if avail.isEmpty then (.error .noStockAvailable, db)
  else if sumQty avail < qty then (.error (.insufficientAvailable (sumQty avail)), db)
  else
    let out := fifoAlloc4 avail qty
    (.ok out.1, applyUpdates db out.2)

end InventoryManager

/-! ## Prescription dispensing flow (`POST /api/prescriptions/{id}/dispense`) -/

/-- A `PrescriptionItem` row as the dispense loop reads it. -/
structure PItem where
  medicineId : Nat
  quantity : Int
deriving DecidableEq

/-- The prescription as seen by the dispense endpoint: its lifecycle
status and its item rows. -/
structure Prescription where
  status : PrescriptionStatus
  items : List PItem
deriving DecidableEq

/-- One element of `dispensed_details`. -/
structure ItemDetail where
  medicineId : Nat
  dispensed : List Alloc
deriving DecidableEq

deriving instance DecidableEq for Except

/-- Post-state of a dispense request: the response (or the raised
error), the committed ledger, and the prescription's status. -/
structure DispenseOutcome where
  result : Except ErpError (List ItemDetail)
  ledger : Ledger
  status : PrescriptionStatus
deriving DecidableEq

/-- The per-item loop of `dispense_prescription`: pre-check
`check_stock_availability` (all locations), then
`dispense_medicine_fifo` at the default location `"Pharmacy"`, which
commits per item.  On a raise, the ledger committed so far is what
persists. -/
def dispenseItems (today : Nat) :
    List PItem → Ledger → Except ErpError (List ItemDetail) × Ledger
  | [], db => (.ok [], db)
  | it :: its, db =>
    if check_stock_availability today it.medicineId it.quantity db then
      match InventoryService.dispense_medicine_fifo today it.medicineId it.quantity "Pharmacy" db with
      | (.error e, db1) => (.error e, db1)
      | (.ok allocs, db1) =>
        match dispenseItems today its db1 with
        | (.error e, db2) => (.error e, db2)
        | (.ok ds, db2) => (.ok (⟨it.medicineId, allocs⟩ :: ds), db2)
    else
      (.error (.insufficientForMedicine it.medicineId), db)

/-- The `dispense_prescription` endpoint of `clinic_erp_system.py`
(the not-found branch is out of scope: the prescription row is passed
in).  Requires status `pending`; on full success sets the status to
`dispensed` and commits; any raise leaves the status as it was (the
status assignment is only reached after every item succeeded). -/
def dispense_prescription (today : Nat) (p : Prescription) (db : Ledger) :
    DispenseOutcome :=
  if p.status ≠ PrescriptionStatus.pending then
    ⟨.error .invalidStateTransition, db, p.status⟩
  else
    match dispenseItems today p.items db with
    | (.error e, db1) => ⟨.error e, db1, p.status⟩
    | (.ok ds, db1) => ⟨.ok ds, db1, .dispensed⟩

/-- One dispense invocation against some environment (date, item rows,
ledger), retaining only what it does to the prescription status. -/
structure OpEnv where
  today : Nat
  items : List PItem
  db : Ledger

/-- Iterate dispense operations from the prescription's point of view:
the status after running each operation of the list in turn. -/
def statusAfterOps : List OpEnv → PrescriptionStatus → PrescriptionStatus
  | [], s => s
  | e :: es, s => statusAfterOps es (dispense_prescription e.today ⟨s, e.items⟩ e.db).status

/-! ## Safety checker (`PrescriptionService` of `clinic_erp_system.py`)

Python strings that are text-processed are modelled as `List Char`. -/

/-- A Python string under text processing. -/
abbrev PyStr := List Char

/-- Coerce a literal to its character list. -/
def str (s : String) : PyStr := s.data

/-- Python `str.lower()` (the source data is ASCII; `Char.toLower`
lowercases exactly the ASCII uppercase range). -/
def lowerStr (s : PyStr) : PyStr := s.map Char.toLower

/-- Python `str.split(',')`: splits on every comma; the empty string
yields `[""]`. -/
def splitComma : PyStr → List PyStr
  | [] => [[]]
  | c :: cs =>
    if c = ',' then [] :: splitComma cs
    else
      match splitComma cs with
      | [] => [[c]]
      | t :: ts => (c :: t) :: ts

/-- Python `str.strip()`: drop whitespace from both ends. -/
def stripStr (s : PyStr) : PyStr :=
  ((s.dropWhile Char.isWhitespace).reverse.dropWhile Char.isWhitespace).reverse

/-- Python `needle in hay` on strings: substring occurrence. -/
def substrB (needle hay : PyStr) : Bool := decide (needle <:+: hay)

/-- A `medicines` row: the columns the safety checker reads. -/
structure Medicine where
  id : Nat
  name : PyStr
  genericName : PyStr
deriving DecidableEq

/-- A `drug_interactions` row. -/
structure InteractionRecord where
  drugA : Nat
  drugB : Nat
  severity : String
  description : String
deriving DecidableEq

/-- One warning dict produced by `check_drug_interactions`:
`{"severity": …, "description": …, "drugs": [ids[i], ids[j]]}`. -/
structure InteractionWarning where
  severity : String
  description : String
  drug1 : Nat
  drug2 : Nat
deriving DecidableEq

/-- The `.first()` of the symmetric interaction query: the first table
row matching `(a, b)` in either orientation. -/
def findInteraction (t : List InteractionRecord) (a b : Nat) :
    Option InteractionRecord :=
  t.find? fun r => (r.drugA == a && r.drugB == b) || (r.drugA == b && r.drugB == a)

/-- `PrescriptionService.check_drug_interactions(db, medicine_ids)`:
`for i in range(n): for j in range(i+1, n)` — every index pair `i < j`
in loop order; a warning per pair whose symmetric lookup hits.  The
recursion enumerates, for each head element, its pairs with all later
elements, then recurses — exactly the nested loops' order. -/
def check_drug_interactions (t : List InteractionRecord) :
    List Nat → List InteractionWarning
  | [] => []
  | x :: xs =>
    (xs.filterMap fun y =>
      (findInteraction t x y).map fun r => ⟨r.severity, r.description, x, y⟩)
      ++ check_drug_interactions t xs

/-- The pairs `(ids[i], ids[j])`, `i < j`, in the loop's order. -/
def allIndexPairs : List Nat → List (Nat × Nat)
  | [] => []
  | x :: xs => (xs.map fun y => (x, y)) ++ allIndexPairs xs

/-- The token list `patient.allergies.lower().split(',')`. -/
def allergyTokens (allergiesStr : PyStr) : List PyStr :=
  splitComma (lowerStr allergiesStr)

/-- Does some token of the (lower-cased, comma-split) allergy string
occur, stripped, inside the medicine's lower-cased display name?
(`any(allergy.strip() in medicine.name.lower() for allergy in
allergies)` — note: only `name`, never `generic_name`.) -/
def medAllergyMatch (allergiesStr : PyStr) (m : Medicine) : Bool :=
  (allergyTokens allergiesStr).any fun t => substrB (stripStr t) (lowerStr m.name)

/-- `PrescriptionService.check_allergies(db, patient_id, medicine_ids)`:
the guard `if patient and patient.allergies` skips everything when the
allergy string is empty; otherwise one message per matching medicine, in
`medicine_ids` order.  The per-id lookups are folded in: `meds` is the
list of medicines found for the ids (missing ids are skipped by the
source's `if medicine:`). -/
def check_allergies (allergiesStr : PyStr) (meds : List Medicine) : List PyStr :=
  if allergiesStr = [] then []
  else
    meds.filterMap fun m =>
      if medAllergyMatch allergiesStr m then
        some (str "Patient is allergic to " ++ m.name)
      else none

/-! ## Prescription creation (`PrescriptionService.create_prescription`) -/

/-- One element of `prescription_data.medications`. -/
structure RxItemData where
  medicineId : Nat
  dosage : String
  frequency : String
  durationDays : Nat
  quantity : Int
  instructions : String
deriving DecidableEq

/-- One element of a `PrescriptionItem.warnings` list: the source mixes
interaction dicts and allergy strings in the same Python list. -/
inductive ItemWarning
  | interaction (w : InteractionWarning)
  | allergy (s : PyStr)
deriving DecidableEq

/-- A created `PrescriptionItem` row. -/
structure RxItem where
  medicineId : Nat
  dosage : String
  frequency : String
  durationDays : Nat
  quantity : Int
  instructions : String
  allergyChecked : Bool
  interactionChecked : Bool
  warnings : Option (List ItemWarning)
deriving DecidableEq

/-- The created `Prescription` row with its items. -/
structure CreatedPrescription where
  status : PrescriptionStatus
  patientId : Nat
  doctorId : Nat
  notes : String
  items : List RxItem
deriving DecidableEq

/-- The warnings attached to one item: the interaction warnings whose
`drugs` pair mentions the item's medicine, then every allergy warning
(`warnings.extend(allergy_warnings)` is unconditional). -/
def itemWarningsFor (iw : List InteractionWarning) (aw : List PyStr)
    (medId : Nat) : List ItemWarning :=
  (iw.filter fun w => w.drug1 == medId || w.drug2 == medId).map .interaction
    ++ aw.map .allergy

/-- `PrescriptionService.create_prescription` of `clinic_erp_system.py`:
runs both safety checks, creates the prescription with status
`PENDING`, and attaches each item's warnings (`None` when the list is
empty).  The function has no failure path; `lookup` stands for the
per-id medicine query used by the allergy check. -/
def create_prescription (t : List InteractionRecord) (allergiesStr : PyStr)
    (lookup : Nat → Option Medicine) (patientId doctorId : Nat) (notes : String)
    (medications : List RxItemData) : CreatedPrescription :=
  let medicine_ids := medications.map RxItemData.medicineId
  let interaction_warnings := check_drug_interactions t medicine_ids
  let allergy_warnings := check_allergies allergiesStr (medicine_ids.filterMap lookup)
  { status := .pending
    patientId := patientId
    doctorId := doctorId
    notes := notes
    items := medications.map fun it =>
      let ws := itemWarningsFor interaction_warnings allergy_warnings it.medicineId
      { medicineId := it.medicineId
        dosage := it.dosage
        frequency := it.frequency
        durationDays := it.durationDays
        quantity := it.quantity
        instructions := it.instructions
        allergyChecked := true
        interactionChecked := true
        warnings := if ws.isEmpty then none else some ws } }

/-- Erase the `warnings` fields of a created prescription (used to state
that the safety checks influence nothing else). -/
def eraseWarnings (c : CreatedPrescription) : CreatedPrescription :=
  { c with items := c.items.map fun i => { i with warnings := none } }

/-- The order-insensitive content of an interaction warning: severity,
description, and the *unordered* pair of drug ids. -/
def wcontent (w : InteractionWarning) : String × String × Multiset Nat :=
  (w.severity, w.description, {w.drug1, w.drug2})

/-! ## Lemmas about the stock ledger view -/

theorem insertByExpiry_perm (b : Batch) (l : List Batch) :
    (insertByExpiry b l).Perm (b :: l) := by
  induction l with
  | nil => exact List.Perm.refl _
  | cons c cs ih =>
    simp only [insertByExpiry]
    split
    · exact (ih.cons c).trans (List.Perm.swap b c cs)
    · exact List.Perm.refl _

theorem sortByExpiry_perm (l : List Batch) : (sortByExpiry l).Perm l := by
  induction l with
  | nil => exact List.Perm.refl _
  | cons b bs ih => exact (insertByExpiry_perm b _).trans (ih.cons b)

theorem insertByExpiry_sorted {b : Batch} {l : List Batch}
    (h : l.Pairwise fun x y => x.expiryDate ≤ y.expiryDate) :
    (insertByExpiry b l).Pairwise fun x y => x.expiryDate ≤ y.expiryDate := by
  induction l with
  | nil => simp [insertByExpiry]
  | cons c cs ih =>
    rw [List.pairwise_cons] at h
    simp only [insertByExpiry]
    split
    · rename_i hlt
      rw [List.pairwise_cons]
      refine ⟨fun x hx => ?_, ih h.2⟩
      rcases List.mem_cons.mp ((insertByExpiry_perm b cs).mem_iff.mp hx) with rfl | hxc
      · omega
      · exact h.1 x hxc
    · rename_i hge
      rw [List.pairwise_cons]
      refine ⟨fun x hx => ?_, List.pairwise_cons.mpr h⟩
      rcases List.mem_cons.mp hx with rfl | hxc
      · omega
      · exact le_trans (by omega) (h.1 x hxc)

theorem sortByExpiry_sorted (l : List Batch) :
    (sortByExpiry l).Pairwise fun x y => x.expiryDate ≤ y.expiryDate := by
  induction l with
  | nil => simp [sortByExpiry]
  | cons b bs ih => exact insertByExpiry_sorted ih

theorem mem_availableBatches {today medId : Nat} {loc : String} {db : Ledger}
    {b : Batch} :
    b ∈ availableBatches today medId loc db
      ↔ b ∈ db ∧ availableBatch today medId loc b = true := by
  unfold availableBatches
  rw [(sortByExpiry_perm _).mem_iff, List.mem_filter]

theorem availableBatches_pos {today medId : Nat} {loc : String} {db : Ledger}
    {b : Batch} (hb : b ∈ availableBatches today medId loc db) :
    0 < b.quantity := by
  have h := (mem_availableBatches.mp hb).2
  simp only [availableBatch, Bool.and_eq_true, decide_eq_true_eq] at h
  exact h.1.2

theorem sumQty_nonneg {l : List Batch} (h : ∀ b ∈ l, 0 < b.quantity) :
    0 ≤ sumQty l := by
  induction l with
  | nil => simp [sumQty]
  | cons b bs ih =>
    have h1 := h b (List.mem_cons_self b bs)
    have h2 := ih fun x hx => h x (List.mem_cons_of_mem b hx)
    simp only [sumQty, List.map_cons, List.sum_cons] at h2 ⊢
    omega

theorem applyUpdates_nil (db : Ledger) : applyUpdates db [] = db := by
  simp [applyUpdates, List.find?]

/-! ## Lemmas about the FIFO loops -/

/-- When the available total is short, the `InventoryService` loop
drains every row, dispenses every quantity, and is left with exactly the
shortfall. -/
theorem fifoAlloc_insufficient {l : List Batch} {r : Int}
    (hpos : ∀ b ∈ l, 0 < b.quantity) (hlt : sumQty l < r) :
    fifoAlloc l r =
      (l.map fun b => ⟨b.batchNumber, b.quantity, b.expiryDate⟩,
       l.map fun b => { b with quantity := 0 },
       r - sumQty l) := by
  induction l generalizing r with
  | nil =>
    simp [fifoAlloc, sumQty]
  | cons b bs ih =>
    have hbpos := hpos b (List.mem_cons_self b bs)
    have hrest : 0 ≤ sumQty bs :=
      sumQty_nonneg fun x hx => hpos x (List.mem_cons_of_mem b hx)
    have hsum : sumQty (b :: bs) = b.quantity + sumQty bs := by
      simp [sumQty]
    have h1 : ¬ r ≤ 0 := by omega
    have h2 : ¬ r ≤ b.quantity := by omega
    have hlt2 : sumQty bs < r - b.quantity := by omega
    have hstep : fifoAlloc (b :: bs) r =
        (⟨b.batchNumber, b.quantity, b.expiryDate⟩ :: (fifoAlloc bs (r - b.quantity)).1,
         { b with quantity := 0 } :: (fifoAlloc bs (r - b.quantity)).2.1,
         (fifoAlloc bs (r - b.quantity)).2.2) := by
      simp only [fifoAlloc, if_neg h1, if_neg h2]
    rw [hstep, ih (fun x hx => hpos x (List.mem_cons_of_mem b hx)) hlt2, hsum]
    simp only [List.map_cons, Prod.mk.injEq, List.cons.injEq, true_and,
      and_true]
    omega

/-- When the available total covers a nonnegative request, the
`InventoryService` loop satisfies it exactly: remainder zero, dispensed
quantities summing to the request, entries paired in order with a prefix
of the row list, each taking the minimum of the row's quantity and what
is still needed (and each strictly positive). -/
theorem fifoAlloc_sufficient {l : List Batch} {r : Int}
    (h0 : 0 ≤ r) (hle : r ≤ sumQty l) (hpos : ∀ b ∈ l, 0 < b.quantity) :
    (fifoAlloc l r).2.2 = 0 ∧
    allocSum (fifoAlloc l r).1 = r ∧
    (fifoAlloc l r).1.length ≤ l.length ∧
    (fifoAlloc l r).1.map Alloc.batchNumber
      = (l.map Batch.batchNumber).take (fifoAlloc l r).1.length ∧
    (fifoAlloc l r).1.map Alloc.expiryDate
      = (l.map Batch.expiryDate).take (fifoAlloc l r).1.length ∧
    (∀ a ∈ (fifoAlloc l r).1, 0 < a.quantity) ∧
    (∀ i (h1 : i < (fifoAlloc l r).1.length) (h2 : i < l.length),
      ((fifoAlloc l r).1.get ⟨i, h1⟩).quantity
        = min ((l.get ⟨i, h2⟩).quantity)
            (r - allocSum ((fifoAlloc l r).1.take i))) := by
  induction l generalizing r with
  | nil =>
    have hr : r = 0 := by
      simp only [sumQty, List.map_nil, List.sum_nil] at hle
      omega
    subst hr
    simp [fifoAlloc, allocSum]
  | cons b bs ih =>
    have hbpos := hpos b (List.mem_cons_self b bs)
    have hsum : sumQty (b :: bs) = b.quantity + sumQty bs := by simp [sumQty]
    by_cases hz : r ≤ 0
    · have hr : r = 0 := by omega
      subst hr
      simp [fifoAlloc, allocSum]
    · by_cases hfit : r ≤ b.quantity
      · have hstep : fifoAlloc (b :: bs) r =
            ([⟨b.batchNumber, r, b.expiryDate⟩],
             [{ b with quantity := b.quantity - r }], 0) := by
          simp only [fifoAlloc, if_neg hz, if_pos hfit]
        rw [hstep]
        refine ⟨rfl, by simp [allocSum], by simp, by simp, by simp,
          fun a ha => ?_, fun i h1 h2 => ?_⟩
        · rcases List.mem_singleton.mp ha with rfl
          simp only
          omega
        · have hi : i = 0 := by
            simp only [List.length_singleton] at h1
            omega
          subst hi
          simp only [List.get, List.take_zero, allocSum, List.map_nil,
            List.sum_nil, sub_zero]
          omega
      · have h0r : 0 ≤ r - b.quantity := by omega
        have hler : r - b.quantity ≤ sumQty bs := by omega
        have hposr : ∀ x ∈ bs, 0 < x.quantity :=
          fun x hx => hpos x (List.mem_cons_of_mem b hx)
        obtain ⟨ihz, ihsum, ihlen, ihbn, ihex, ihqpos, ihmin⟩ := ih h0r hler hposr
        have hstep : fifoAlloc (b :: bs) r =
            (⟨b.batchNumber, b.quantity, b.expiryDate⟩ :: (fifoAlloc bs (r - b.quantity)).1,
             { b with quantity := 0 } :: (fifoAlloc bs (r - b.quantity)).2.1,
             (fifoAlloc bs (r - b.quantity)).2.2) := by
          simp only [fifoAlloc, if_neg hz, if_neg hfit]
        rw [hstep]
        refine ⟨ihz, ?_, ?_, ?_, ?_, ?_, ?_⟩
        · simp only [allocSum, List.map_cons, List.sum_cons] at ihsum ⊢
          omega
        · simpa using ihlen
        · simpa [List.take_succ_cons] using ihbn
        · simpa [List.take_succ_cons] using ihex
        · intro a ha
          rcases List.mem_cons.mp ha with rfl | ha
          · simp only
            omega
          · exact ihqpos a ha
        · intro i h1 h2
          match i with
          | 0 =>
            simp only [List.get, List.take_zero, allocSum, List.map_nil,
              List.sum_nil, sub_zero]
            omega
          | Nat.succ j =>
            have hj1 : j < (fifoAlloc bs (r - b.quantity)).1.length := by
              simpa using h1
            have hj2 : j < bs.length := by simpa using h2
            have hmin := ihmin j hj1 hj2
            simp only [List.get, List.take_succ_cons, allocSum,
              List.map_cons, List.sum_cons]
            simp only [allocSum] at hmin
            rw [hmin]
            congr 1
            omega

/-- The `InventoryManager` loop at remainder zero touches nothing. -/
theorem fifoAlloc4_zero (l : List Batch) : fifoAlloc4 l 0 = ([], []) := by
  cases l <;> simp [fifoAlloc4]

/-- For nonnegative requests over positive rows the two FIFO loops
produce the same dispensed entries and the same row mutations. -/
theorem fifoAlloc4_eq {l : List Batch} {r : Int}
    (h0 : 0 ≤ r) (hpos : ∀ b ∈ l, 0 < b.quantity) :
    fifoAlloc4 l r = ((fifoAlloc l r).1, (fifoAlloc l r).2.1) := by
  induction l generalizing r with
  | nil => simp [fifoAlloc4, fifoAlloc]
  | cons b bs ih =>
    have hbpos := hpos b (List.mem_cons_self b bs)
    by_cases hr : r = 0
    · subst hr
      simp [fifoAlloc4, fifoAlloc]
    · have hrpos : 0 < r := by omega
      have hne : (r == 0) = false := by
        simp only [beq_eq_false_iff_ne, ne_eq]
        exact hr
      by_cases hfit : r ≤ b.quantity
      · have hmin : min b.quantity r = r := min_eq_right hfit
        simp only [fifoAlloc4, hne, Bool.false_eq_true, if_false, hmin,
          sub_self, fifoAlloc4_zero, fifoAlloc, if_neg (by omega : ¬ r ≤ 0),
          if_pos hfit]
      · have hlt : b.quantity < r := by omega
        have hmin : min b.quantity r = b.quantity := min_eq_left (by omega)
        have ihr := ih (by omega : (0:Int) ≤ r - b.quantity)
          (fun x hx => hpos x (List.mem_cons_of_mem b hx))
        simp only [fifoAlloc4, hne, Bool.false_eq_true, if_false, hmin, ihr,
          fifoAlloc, if_neg (by omega : ¬ r ≤ 0), if_neg hfit, sub_self]


/-! ## Lemmas about the safety checker -/

theorem filterMap_guard {α β : Type} (p : α → Bool) (f : α → β) (l : List α) :
    (l.filterMap fun a => if p a then some (f a) else none)
      = (l.filter p).map f := by
  induction l with
  | nil => rfl
  | cons a l ih =>
    by_cases h : p a <;>
      simp [List.filterMap_cons, List.filter_cons, h, ih]

theorem findInteraction_comm (t : List InteractionRecord) (a b : Nat) :
    findInteraction t a b = findInteraction t b a := by
  unfold findInteraction
  congr 1
  funext r
  rw [Bool.or_comm]

theorem check_drug_interactions_eq (t : List InteractionRecord) (ids : List Nat) :
    check_drug_interactions t ids
      = (allIndexPairs ids).filterMap fun p =>
          (findInteraction t p.1 p.2).map
            fun r => ⟨r.severity, r.description, p.1, p.2⟩ := by
  induction ids with
  | nil => rfl
  | cons x xs ih =>
    simp only [check_drug_interactions, allIndexPairs, List.filterMap_append,
      ih, List.filterMap_map]
    rfl

theorem filterMap_pairs_swap {β : Type} (g : Nat × Nat → Option β)
    (hg : ∀ a b, g (a, b) = g (b, a)) (x y : Nat) (l : List Nat) :
    ((allIndexPairs (y :: x :: l)).filterMap g).Perm
      ((allIndexPairs (x :: y :: l)).filterMap g) := by
  have e1 : allIndexPairs (y :: x :: l)
      = (y, x) :: ((l.map fun z => (y, z)) ++ ((l.map fun z => (x, z)) ++ allIndexPairs l)) := by
    simp [allIndexPairs]
  have e2 : allIndexPairs (x :: y :: l)
      = (x, y) :: ((l.map fun z => (x, z)) ++ ((l.map fun z => (y, z)) ++ allIndexPairs l)) := by
    simp [allIndexPairs]
  rw [e1, e2]
  have hyx : g (y, x) = g (x, y) := hg y x
  have hmid : ∀ (A B C : List (Nat × Nat)),
      ((A ++ (B ++ C)).filterMap g).Perm ((B ++ (A ++ C)).filterMap g) := by
    intro A B C
    simp only [List.filterMap_append]
    rw [← List.append_assoc, ← List.append_assoc]
    exact List.perm_append_comm.append_right _
  rcases hgx : g (x, y) with _ | v
  · rw [List.filterMap_cons_none (by rw [hyx, hgx]),
      List.filterMap_cons_none hgx]
    exact hmid _ _ _
  · rw [List.filterMap_cons_some (by rw [hyx, hgx]),
      List.filterMap_cons_some hgx]
    exact (hmid _ _ _).cons v

theorem filterMap_allIndexPairs_perm {β : Type} (g : Nat × Nat → Option β)
    (hg : ∀ a b, g (a, b) = g (b, a)) {ids ids2 : List Nat}
    (h : ids.Perm ids2) :
    ((allIndexPairs ids).filterMap g).Perm
      ((allIndexPairs ids2).filterMap g) := by
  induction h with
  | nil => exact List.Perm.refl _
  | cons x h ih =>
    simp only [allIndexPairs, List.filterMap_append, List.filterMap_map]
    exact (List.Perm.filterMap (g ∘ fun z => (x, z)) h).append ih
  | swap x y l => exact filterMap_pairs_swap g hg x y l
  | trans h1 h2 ih1 ih2 => exact ih1.trans ih2

/-! ## Lemmas about the dispense flow -/

theorem dispense_prescription_nonpending {today : Nat} {p : Prescription}
    {db : Ledger} (h : p.status ≠ PrescriptionStatus.pending) :
    dispense_prescription today p db
      = ⟨.error .invalidStateTransition, db, p.status⟩ := by
  simp [dispense_prescription, h]

/-- If the image of `as` under `f` is a prefix of the image of `bs`
under `g`, the images agree index by index. -/
theorem map_take_get {α β γ : Type} (f : α → γ) (g : β → γ)
    (as : List α) (bs : List β)
    (h : as.map f = (bs.map g).take as.length) :
    ∀ i (h1 : i < as.length) (h2 : i < bs.length),
      f (as.get ⟨i, h1⟩) = g (bs.get ⟨i, h2⟩) := by
  induction as generalizing bs with
  | nil => intro i h1 _; exact absurd h1 (by simp)
  | cons a as ih =>
    intro i h1 h2
    cases bs with
    | nil => exact absurd h2 (by simp)
    | cons b bs =>
      simp only [List.map_cons, List.length_cons, List.take_succ_cons,
        List.cons.injEq] at h
      match i with
      | 0 => exact h.1
      | Nat.succ j =>
        exact ih bs h.2 j (by simpa using h1) (by simpa using h2)

/-! ## Claim theorems -/

/-- **C2** (amended): whenever the available total of the requested
medicine at the requested location is strictly below the request, both
FIFO dispensers fail and leave the committed ledger untouched.  The
serving `InventoryService` version fails with `InsufficientStock`
carrying the requested and the available amounts; the
`InventoryManager` variant carries only the available amount (and a
plain no-stock error when no batch is available at all). -/
theorem claim_C2_insufficient_stock_failure (today medId : Nat) (qty : Int)
    (loc : String) (db : Ledger)
    (h : sumQty (availableBatches today medId loc db) < qty) :
    InventoryService.dispense_medicine_fifo today medId qty loc db
      = (.error (.insufficientStock qty (sumQty (availableBatches today medId loc db))), db)
    ∧ (availableBatches today medId loc db = [] →
        InventoryManager.dispense_medicine_fifo today medId qty loc db
          = (.error .noStockAvailable, db))
    ∧ (availableBatches today medId loc db ≠ [] →
        InventoryManager.dispense_medicine_fifo today medId qty loc db
          = (.error (.insufficientAvailable (sumQty (availableBatches today medId loc db))), db)) := by
  have hpos : ∀ b ∈ availableBatches today medId loc db, 0 < b.quantity :=
    fun b hb => availableBatches_pos hb
  have hfa := fifoAlloc_insufficient hpos h
  have hnn : 0 ≤ sumQty (availableBatches today medId loc db) := sumQty_nonneg hpos
  refine ⟨?_, ?_, ?_⟩
  · have hc : (0:Int) < qty - sumQty (availableBatches today medId loc db) := by
      omega
    have hsub : qty - (qty - sumQty (availableBatches today medId loc db))
        = sumQty (availableBatches today medId loc db) := by omega
    simp only [InventoryService.dispense_medicine_fifo, hfa]
    rw [if_pos hc, hsub]
  · intro h2
    simp [InventoryManager.dispense_medicine_fifo, h2]
  · intro h2
    have hie : (availableBatches today medId loc db).isEmpty = false := by
      cases hAe : availableBatches today medId loc db with
      | nil => exact absurd hAe h2
      | cons a l => rfl
    simp only [InventoryManager.dispense_medicine_fifo, hie,
      Bool.false_eq_true, if_false, if_pos h]

/-- Witness for C2 at concrete inputs (a single short batch, and an
empty ledger). -/
theorem claim_C2_witness :
    InventoryService.dispense_medicine_fifo 5 1 7 "Pharmacy"
        [⟨1, 1, "B1", 3, 10, "Pharmacy"⟩]
      = (.error (.insufficientStock 7 3), [⟨1, 1, "B1", 3, 10, "Pharmacy"⟩])
    ∧ InventoryManager.dispense_medicine_fifo 5 1 7 "Pharmacy" []
      = (.error .noStockAvailable, [])
    ∧ InventoryManager.dispense_medicine_fifo 5 1 7 "Pharmacy"
        [⟨1, 1, "B1", 3, 10, "Pharmacy"⟩]
      = (.error (.insufficientAvailable 3), [⟨1, 1, "B1", 3, 10, "Pharmacy"⟩]) := by
  refine ⟨?_, ?_, ?_⟩
  · exact (claim_C2_insufficient_stock_failure 5 1 7 "Pharmacy"
      [⟨1, 1, "B1", 3, 10, "Pharmacy"⟩] (by decide)).1
  · exact (claim_C2_insufficient_stock_failure 5 1 7 "Pharmacy" []
      (by decide)).2.1 (by decide)
  · exact (claim_C2_insufficient_stock_failure 5 1 7 "Pharmacy"
      [⟨1, 1, "B1", 3, 10, "Pharmacy"⟩] (by decide)).2.2 (by decide)

/-- Counterexample to C2 as stated: the `InventoryManager` variant of
`allocate` (cited by the claim) reports insufficiency with an error
carrying **only** the available amount (`ValueError(f"Insufficient
stock. Available: {total_available}")`), not the pair
`(requested, available)` the claim demands. -/
theorem claim_C2_counterexample :
    InventoryManager.dispense_medicine_fifo 5 1 7 "Pharmacy"
        [⟨1, 1, "B1", 3, 10, "Pharmacy"⟩]
      = (.error (.insufficientAvailable 3), [⟨1, 1, "B1", 3, 10, "Pharmacy"⟩])
    ∧ ErpError.insufficientAvailable 3 ≠ ErpError.insufficientStock 7 3 := by
  decide

/-- **C3** (amended): for a nonnegative request covered by the
available (positive-quantity, strictly future expiry, matching
location) batches, the serving allocator succeeds with entries that sum
exactly to the request, pair up in order with a prefix of the
expiry-sorted availability list (hence are drawn only from available
batches, in non-decreasing expiry order), and each take the minimum of
the batch's remaining quantity and what is still needed; the
`InventoryManager` variant returns the same entries provided at least
one available batch exists (it errors on an empty availability list,
even when the request is `0`). -/
theorem claim_C3_sufficient_allocation (today medId : Nat) (qty : Int)
    (loc : String) (db : Ledger) (h0 : 0 ≤ qty)
    (hle : qty ≤ sumQty (availableBatches today medId loc db)) :
    ∃ as : List Alloc,
      (InventoryService.dispense_medicine_fifo today medId qty loc db).1 = .ok as
      ∧ allocSum as = qty
      ∧ as.length ≤ (availableBatches today medId loc db).length
      ∧ as.map Alloc.batchNumber
          = ((availableBatches today medId loc db).map Batch.batchNumber).take as.length
      ∧ as.map Alloc.expiryDate
          = ((availableBatches today medId loc db).map Batch.expiryDate).take as.length
      ∧ (as.map Alloc.expiryDate).Pairwise (· ≤ ·)
      ∧ (∀ a ∈ as, ∃ b ∈ availableBatches today medId loc db,
          a.batchNumber = b.batchNumber ∧ a.expiryDate = b.expiryDate ∧
          0 < a.quantity ∧ a.quantity ≤ b.quantity)
      ∧ (∀ i (h1 : i < as.length)
            (h2 : i < (availableBatches today medId loc db).length),
          (as.get ⟨i, h1⟩).quantity
            = min ((availableBatches today medId loc db).get ⟨i, h2⟩).quantity
                (qty - allocSum (as.take i)))
      ∧ (availableBatches today medId loc db ≠ [] →
          (InventoryManager.dispense_medicine_fifo today medId qty loc db).1 = .ok as) := by
  have hpos : ∀ b ∈ availableBatches today medId loc db, 0 < b.quantity :=
    fun b hb => availableBatches_pos hb
  obtain ⟨hz, hsum, hlen, hbn, hex, hqpos, hmin⟩ :=
    fifoAlloc_sufficient h0 hle hpos
  refine ⟨(fifoAlloc (availableBatches today medId loc db) qty).1,
    ?_, hsum, hlen, hbn, hex, ?_, ?_, hmin, ?_⟩
  · simp only [InventoryService.dispense_medicine_fifo]
    rw [if_neg (by omega)]
  · rw [hex]
    have hs1 : ((availableBatches today medId loc db).map Batch.expiryDate).Pairwise (· ≤ ·) := by
      rw [List.pairwise_map]
      exact sortByExpiry_sorted _
    exact hs1.sublist (List.take_sublist _ _)
  · intro a ha
    obtain ⟨⟨i, hi⟩, rfl⟩ := List.mem_iff_get.mp ha
    have hi2 : i < (availableBatches today medId loc db).length :=
      lt_of_lt_of_le hi hlen
    refine ⟨(availableBatches today medId loc db).get ⟨i, hi2⟩,
      List.get_mem _ _ _, ?_, ?_, hqpos _ (List.get_mem _ _ _), ?_⟩
    · exact map_take_get Alloc.batchNumber Batch.batchNumber _ _ hbn i hi hi2
    · exact map_take_get Alloc.expiryDate Batch.expiryDate _ _ hex i hi hi2
    · rw [hmin i hi hi2]
      exact min_le_left _ _
  · intro hne
    have hie : (availableBatches today medId loc db).isEmpty = false := by
      cases hAe : availableBatches today medId loc db with
      | nil => exact absurd hAe hne
      | cons a l => rfl
    simp only [InventoryManager.dispense_medicine_fifo, hie,
      Bool.false_eq_true, if_false, if_neg (by omega : ¬ sumQty (availableBatches today medId loc db) < qty)]
    rw [fifoAlloc4_eq h0 hpos]

/-- Witness for C3 at the spec's own example: batches of 10 expiring at
`+5d` and `+10d`, request 15 — entries `(b1, 10)` then `(b2, 5)`. -/
theorem claim_C3_witness :
    (InventoryService.dispense_medicine_fifo 100 1 15 "Pharmacy"
        [⟨1, 1, "b1", 10, 105, "Pharmacy"⟩, ⟨2, 1, "b2", 10, 110, "Pharmacy"⟩]).1
      = .ok [⟨"b1", 10, 105⟩, ⟨"b2", 5, 110⟩]
    ∧ allocSum [⟨"b1", (10:Int), 105⟩, ⟨"b2", 5, 110⟩] = 15
    ∧ (InventoryManager.dispense_medicine_fifo 100 1 15 "Pharmacy"
        [⟨1, 1, "b1", 10, 105, "Pharmacy"⟩, ⟨2, 1, "b2", 10, 110, "Pharmacy"⟩]).1
      = .ok [⟨"b1", 10, 105⟩, ⟨"b2", 5, 110⟩] := by
  obtain ⟨as, h1, h2, -, -, -, -, -, -, h9⟩ :=
    claim_C3_sufficient_allocation 100 1 15 "Pharmacy"
      [⟨1, 1, "b1", 10, 105, "Pharmacy"⟩, ⟨2, 1, "b2", 10, 110, "Pharmacy"⟩]
      (by decide) (by decide)
  have hc : (InventoryService.dispense_medicine_fifo 100 1 15 "Pharmacy"
      [⟨1, 1, "b1", 10, 105, "Pharmacy"⟩, ⟨2, 1, "b2", 10, 110, "Pharmacy"⟩]).1
      = .ok [⟨"b1", 10, 105⟩, ⟨"b2", 5, 110⟩] := by decide
  have has : as = [⟨"b1", 10, 105⟩, ⟨"b2", 5, 110⟩] :=
    Except.ok.inj (h1.symm.trans hc)
  refine ⟨hc, by rw [← has]; exact h2, ?_⟩
  rw [← has]
  exact h9 (by decide)

/-- Counterexample to C3 as stated.  Corner one: with no batch at all,
the available total (`0`) still covers a request of `0`, so the claim
demands success with an empty allocation — the cited
`InventoryManager` implementation instead raises its no-stock error.
Corner two: a negative request (`-3`) is also covered by any available
total, yet the serving allocator returns an empty allocation summing to
`0`, not to the requested quantity. -/
theorem claim_C3_counterexample :
    InventoryManager.dispense_medicine_fifo 100 1 0 "Pharmacy" []
      = (.error .noStockAvailable, [])
    ∧ sumQty (availableBatches 100 1 "Pharmacy" []) = 0
    ∧ (InventoryService.dispense_medicine_fifo 5 1 (-3) "Pharmacy" []).1 = .ok []
    ∧ allocSum ([] : List Alloc) ≠ (-3 : Int) := by
  decide

/-- **C4** (amended): a request of `0` is a committed no-op success with
an empty allocation list for the serving `InventoryService` allocator on
**every** ledger; the `InventoryManager` variant behaves the same
whenever at least one available batch exists, but raises its no-stock
error (still leaving the ledger unchanged) when none does. -/
theorem claim_C4_zero_request (today medId : Nat) (loc : String) (db : Ledger) :
    InventoryService.dispense_medicine_fifo today medId 0 loc db = (.ok [], db)
    ∧ (availableBatches today medId loc db = [] →
        InventoryManager.dispense_medicine_fifo today medId 0 loc db
          = (.error .noStockAvailable, db))
    ∧ (availableBatches today medId loc db ≠ [] →
        InventoryManager.dispense_medicine_fifo today medId 0 loc db
          = (.ok [], db)) := by
  have hpos : ∀ b ∈ availableBatches today medId loc db, 0 < b.quantity :=
    fun b hb => availableBatches_pos hb
  have hzero : fifoAlloc (availableBatches today medId loc db) 0 = ([], [], 0) := by
    cases availableBatches today medId loc db with
    | nil => rfl
    | cons b bs => simp [fifoAlloc]
  refine ⟨?_, ?_, ?_⟩
  · simp only [InventoryService.dispense_medicine_fifo, hzero]
    rw [if_neg (by omega : ¬ (0:Int) < 0), applyUpdates_nil]
  · intro h2
    simp [InventoryManager.dispense_medicine_fifo, h2]
  · intro h2
    have hie : (availableBatches today medId loc db).isEmpty = false := by
      cases hAe : availableBatches today medId loc db with
      | nil => exact absurd hAe h2
      | cons a l => rfl
    have hnn := sumQty_nonneg hpos
    simp only [InventoryManager.dispense_medicine_fifo, hie,
      Bool.false_eq_true, if_false,
      if_neg (by omega : ¬ sumQty (availableBatches today medId loc db) < 0),
      fifoAlloc4_zero, applyUpdates_nil]

/-- Witness for C4 at concrete inputs: empty ledger and a one-batch
ledger. -/
theorem claim_C4_witness :
    InventoryService.dispense_medicine_fifo 5 1 0 "Pharmacy" [] = (.ok [], [])
    ∧ InventoryManager.dispense_medicine_fifo 5 1 0 "Pharmacy" []
        = (.error .noStockAvailable, [])
    ∧ InventoryManager.dispense_medicine_fifo 5 1 0 "Pharmacy"
          [⟨1, 1, "B1", 3, 10, "Pharmacy"⟩]
        = (.ok [], [⟨1, 1, "B1", 3, 10, "Pharmacy"⟩]) :=
  ⟨(claim_C4_zero_request 5 1 "Pharmacy" []).1,
   (claim_C4_zero_request 5 1 "Pharmacy" []).2.1 (by decide),
   (claim_C4_zero_request 5 1 "Pharmacy" [⟨1, 1, "B1", 3, 10, "Pharmacy"⟩]).2.2
     (by decide)⟩

/-- Counterexample to C4 as stated ("including one with no batches at
all … never raises any error"): the cited `InventoryManager`
implementation raises `ValueError("No stock available")` for a zero
request against an empty ledger. -/
theorem claim_C4_counterexample :
    InventoryManager.dispense_medicine_fifo 5 1 0 "Pharmacy" []
      = (.error .noStockAvailable, []) := by
  decide

/-- **C5** (amended): a strictly negative requested quantity is not
validated anywhere.  The serving `InventoryService` allocator treats it
exactly like zero: committed success, empty allocation, no batch
changed.  The `InventoryManager` variant, whenever an available batch
exists, even *increases* the first batch's stock by the magnitude and
reports a negative allocation entry. -/
theorem claim_C5_negative_request (today medId : Nat) (qty : Int)
    (loc : String) (db : Ledger) (h : qty < 0) :
    InventoryService.dispense_medicine_fifo today medId qty loc db = (.ok [], db)
    ∧ ∀ b rest, availableBatches today medId loc db = b :: rest →
        InventoryManager.dispense_medicine_fifo today medId qty loc db
          = (.ok [⟨b.batchNumber, qty, b.expiryDate⟩],
             applyUpdates db [{ b with quantity := b.quantity - qty }]) := by
  have hneg : fifoAlloc (availableBatches today medId loc db) qty = ([], [], qty) := by
    cases availableBatches today medId loc db with
    | nil => rfl
    | cons b bs => simp [fifoAlloc, le_of_lt h]
  refine ⟨?_, ?_⟩
  · simp only [InventoryService.dispense_medicine_fifo, hneg]
    rw [if_neg (by omega : ¬ (0:Int) < qty), applyUpdates_nil]
  · intro b rest hA
    have hbpos : 0 < b.quantity :=
      availableBatches_pos (hA ▸ List.mem_cons_self b rest)
    have hpos : ∀ x ∈ availableBatches today medId loc db, 0 < x.quantity :=
      fun x hx => availableBatches_pos hx
    have hnn := sumQty_nonneg hpos
    have hie : (availableBatches today medId loc db).isEmpty = false := by
      rw [hA]; rfl
    have hne : (qty == 0) = false := by
      simp only [beq_eq_false_iff_ne, ne_eq]
      omega
    have hf4 : fifoAlloc4 (availableBatches today medId loc db) qty
        = ([⟨b.batchNumber, qty, b.expiryDate⟩],
           [{ b with quantity := b.quantity - qty }]) := by
      rw [hA]
      have hmin : min b.quantity qty = qty := min_eq_right (by omega)
      simp only [fifoAlloc4, hne, Bool.false_eq_true, if_false, hmin,
        sub_self, fifoAlloc4_zero]
    simp only [InventoryManager.dispense_medicine_fifo, hie,
      Bool.false_eq_true, if_false,
      if_neg (by omega : ¬ sumQty (availableBatches today medId loc db) < qty),
      hf4]

/-- Witness for C5 at concrete inputs: request `-1` against an empty
ledger (serving allocator) and against a single batch of 3 (variant:
the batch grows to 4). -/
theorem claim_C5_witness :
    InventoryService.dispense_medicine_fifo 5 1 (-1) "Pharmacy" [] = (.ok [], [])
    ∧ InventoryManager.dispense_medicine_fifo 5 1 (-1) "Pharmacy"
          [⟨1, 1, "B1", 3, 10, "Pharmacy"⟩]
        = (.ok [⟨"B1", -1, 10⟩], [⟨1, 1, "B1", 4, 10, "Pharmacy"⟩]) := by
  refine ⟨(claim_C5_negative_request 5 1 (-1) "Pharmacy" [] (by decide)).1, ?_⟩
  have h := (claim_C5_negative_request 5 1 (-1) "Pharmacy"
      [⟨1, 1, "B1", 3, 10, "Pharmacy"⟩] (by decide)).2
      ⟨1, 1, "B1", 3, 10, "Pharmacy"⟩ [] (by decide)
  exact h.trans (by decide)

/-- Counterexample to C5 as stated: a negative request does **not**
fail with a validation error — the serving allocator succeeds with an
empty allocation, and the `InventoryManager` variant succeeds while
*changing* a batch quantity (3 becomes 4). -/
theorem claim_C5_counterexample :
    (InventoryService.dispense_medicine_fifo 5 1 (-2) "Pharmacy" []).1 = .ok []
    ∧ InventoryManager.dispense_medicine_fifo 5 1 (-2) "Pharmacy"
          [⟨1, 1, "B1", 3, 10, "Pharmacy"⟩]
        = (.ok [⟨"B1", -2, 10⟩], [⟨1, 1, "B1", 5, 10, "Pharmacy"⟩]) := by
  decide

/-- **C1** (code bug): the dispense flow is *not* all-or-nothing.  Two
items, both passing the any-location pre-check; item 1 (4 of medicine 1)
allocates and **commits**, item 2 (5 of medicine 2, whose stock sits at
`"Warehouse"`, not the allocator's `"Pharmacy"`) fails — the request
errors and the prescription stays `pending`, but batch `A1` remains
decremented from 10 to 6 in the committed ledger: the rollback the spec
requires never happens, because `dispense_medicine_fifo` commits per
item inside the loop. -/
theorem claim_C1_rollback_missing :
    dispense_prescription 100 ⟨.pending, [⟨1, 4⟩, ⟨2, 5⟩]⟩
        [⟨1, 1, "A1", 10, 200, "Pharmacy"⟩, ⟨2, 2, "B1", 10, 200, "Warehouse"⟩]
      = ⟨.error (.insufficientStock 5 0),
         [⟨1, 1, "A1", 6, 200, "Pharmacy"⟩, ⟨2, 2, "B1", 10, 200, "Warehouse"⟩],
         .pending⟩
    ∧ ([⟨1, 1, "A1", 6, 200, "Pharmacy"⟩, ⟨2, 2, "B1", 10, 200, "Warehouse"⟩] : Ledger)
        ≠ [⟨1, 1, "A1", 10, 200, "Pharmacy"⟩, ⟨2, 2, "B1", 10, 200, "Warehouse"⟩] := by
  decide

/-- **C10** (confirmed): the pre-check sums stock over **all**
locations while the allocator draws only from `"Pharmacy"`, so a ledger
whose only batch sits at `"Warehouse"` passes
`check_stock_availability` yet fails `dispense_medicine_fifo` — and the
dispense flow, which runs exactly this pre-check before each item,
reaches the allocator and surfaces the allocator's error. -/
theorem claim_C10_precheck_location_mismatch :
    check_stock_availability 100 1 5 [⟨1, 1, "W1", 10, 200, "Warehouse"⟩] = true
    ∧ InventoryService.dispense_medicine_fifo 100 1 5 "Pharmacy"
        [⟨1, 1, "W1", 10, 200, "Warehouse"⟩]
      = (.error (.insufficientStock 5 0), [⟨1, 1, "W1", 10, 200, "Warehouse"⟩])
    ∧ dispense_prescription 100 ⟨.pending, [⟨1, 5⟩]⟩
        [⟨1, 1, "W1", 10, 200, "Warehouse"⟩]
      = ⟨.error (.insufficientStock 5 0),
         [⟨1, 1, "W1", 10, 200, "Warehouse"⟩], .pending⟩ := by
  decide

/-- **C8** (confirmed): dispensing a non-`pending` prescription fails
with the invalid-state error and changes neither ledger nor status; a
dispense either leaves the status unchanged or moves `pending` to
`dispensed` (so every transition performed lies in
`{pending → dispensed, pending → cancelled}`); and no sequence of
dispense operations ever moves a prescription out of the terminal
states `dispensed` and `cancelled`. -/
theorem claim_C8_lifecycle (today : Nat) (p : Prescription) (db : Ledger) :
    (p.status ≠ PrescriptionStatus.pending →
      dispense_prescription today p db
        = ⟨.error .invalidStateTransition, db, p.status⟩)
    ∧ ((dispense_prescription today p db).status = p.status
        ∨ (p.status = PrescriptionStatus.pending
            ∧ (dispense_prescription today p db).status = PrescriptionStatus.dispensed))
    ∧ (∀ (ops : List OpEnv) (s : PrescriptionStatus),
        (s = PrescriptionStatus.dispensed ∨ s = PrescriptionStatus.cancelled) →
        statusAfterOps ops s = s) := by
  refine ⟨fun h => dispense_prescription_nonpending h, ?_, ?_⟩
  · by_cases h : p.status = PrescriptionStatus.pending
    · unfold dispense_prescription
      rw [if_neg (by simp [h])]
      cases hd : dispenseItems today p.items db with
      | mk res db1 =>
        cases res with
        | error e => left; rfl
        | ok ds => right; exact ⟨h, rfl⟩
    · left
      rw [dispense_prescription_nonpending h]
  · intro ops s hs
    induction ops with
    | nil => rfl
    | cons e es ih =>
      have hsp : s ≠ PrescriptionStatus.pending := by
        rcases hs with rfl | rfl <;> decide
      have hd := @dispense_prescription_nonpending e.today ⟨s, e.items⟩ e.db hsp
      simp only [statusAfterOps, hd]
      exact ih

/-- Witness for C8 at concrete inputs: dispensing an already-dispensed
prescription errors and keeps everything, and a `cancelled`
prescription stays `cancelled` across a sequence of dispense
attempts. -/
theorem claim_C8_witness :
    dispense_prescription 0 ⟨.dispensed, []⟩ []
      = ⟨.error .invalidStateTransition, [], .dispensed⟩
    ∧ statusAfterOps [⟨0, [], []⟩, ⟨7, [⟨1, 2⟩], []⟩] PrescriptionStatus.cancelled
      = PrescriptionStatus.cancelled :=
  ⟨(claim_C8_lifecycle 0 ⟨.dispensed, []⟩ []).1 (by decide),
   (claim_C8_lifecycle 0 ⟨.dispensed, []⟩ []).2.2
     [⟨0, [], []⟩, ⟨7, [⟨1, 2⟩], []⟩] .cancelled (Or.inr rfl)⟩

/-- **C9** (confirmed): prescription creation is a total function whose
prescription row is always `pending` with one item per requested
medication, and whose result — apart from the `warnings` attached to
the items — is completely independent of the interaction table, the
patient's allergy string, and the medicine lookup that feed the safety
checks: the checks can never block or alter creation. -/
theorem claim_C9_checks_never_block (t1 t2 : List InteractionRecord)
    (a1 a2 : PyStr) (l1 l2 : Nat → Option Medicine)
    (patientId doctorId : Nat) (notes : String) (meds : List RxItemData) :
    (create_prescription t1 a1 l1 patientId doctorId notes meds).status
        = PrescriptionStatus.pending
    ∧ (create_prescription t1 a1 l1 patientId doctorId notes meds).items.length
        = meds.length
    ∧ eraseWarnings (create_prescription t1 a1 l1 patientId doctorId notes meds)
        = eraseWarnings (create_prescription t2 a2 l2 patientId doctorId notes meds) := by
  refine ⟨rfl, by simp [create_prescription], ?_⟩
  simp only [eraseWarnings, create_prescription, List.map_map]
  rfl

/-- **C6** (amended): the allergy check matches a medicine exactly when
some comma-separated allergy token — lower-cased and stripped — occurs
as a substring of the medicine's **display name** (lower-cased); the
`generic_name` column is never consulted.  An empty allergy string
matches nothing, one message per matching medicine in input order, and
the spec's own example (`"penicillin"` against
`"Amoxicillin (Penicillin-class)"`) does match, via the name. -/
theorem claim_C6_allergy_substring_name_only (s : PyStr) (meds : List Medicine) :
    (s = [] → check_allergies s meds = [])
    ∧ (s ≠ [] → check_allergies s meds
        = (meds.filter (medAllergyMatch s)).map
            fun m => str "Patient is allergic to " ++ m.name)
    ∧ (∀ m : Medicine, medAllergyMatch s m = true
        ↔ ∃ tk ∈ allergyTokens s, stripStr tk <:+: lowerStr m.name)
    ∧ check_allergies (str "penicillin")
        [⟨7, str "Amoxicillin (Penicillin-class)", str "Amoxicillin"⟩]
      = [str "Patient is allergic to Amoxicillin (Penicillin-class)"] := by
  refine ⟨fun h => by simp [check_allergies, h], fun h => ?_, fun m => ?_,
    by decide⟩
  · simp only [check_allergies, if_neg h]
    exact filterMap_guard _ _ _
  · simp only [medAllergyMatch, List.any_eq_true, substrB, decide_eq_true_eq]

/-- Witness for C6 at concrete inputs: empty allergy string, a matching
medicine, and a token-level match. -/
theorem claim_C6_witness :
    check_allergies [] [⟨1, str "Advil", str "Ibuprofen"⟩] = []
    ∧ check_allergies (str "aspirin") [⟨2, str "Aspirin 100mg", str "ASA"⟩]
        = [str "Patient is allergic to Aspirin 100mg"]
    ∧ medAllergyMatch (str "aspirin") ⟨2, str "Aspirin 100mg", str "ASA"⟩ = true := by
  refine ⟨(claim_C6_allergy_substring_name_only []
      [⟨1, str "Advil", str "Ibuprofen"⟩]).1 rfl, ?_, ?_⟩
  · exact ((claim_C6_allergy_substring_name_only (str "aspirin")
      [⟨2, str "Aspirin 100mg", str "ASA"⟩]).2.1 (by decide)).trans (by decide)
  · exact ((claim_C6_allergy_substring_name_only (str "aspirin") []).2.2.1
      ⟨2, str "Aspirin 100mg", str "ASA"⟩).mpr
      ⟨str "aspirin", by decide, by decide⟩

/-- Counterexample to C6 as stated: the allergy token `"ibuprofen"`
occurs (case-insensitively) in the medicine's **generic name**
`"Ibuprofen"`, so the claim demands a match for the medicine named
`"Advil"` — but `check_allergies` reads only the display name and
reports nothing. -/
theorem claim_C6_counterexample :
    check_allergies (str "ibuprofen") [⟨9, str "Advil", str "Ibuprofen"⟩] = []
    ∧ substrB (stripStr (str "ibuprofen")) (lowerStr (str "Ibuprofen")) = true := by
  decide

/-- **C7** (confirmed): the interaction lookup is symmetric in the two
ids; the warning list is exactly the image of the `(i, j)`-with-`i < j`
pair enumeration (in loop order) under the symmetric lookup; a pair is
reported exactly when a record exists for either ordering; and
permuting the candidate list leaves the multiset of warning contents
(severity, description, unordered id pair) unchanged. -/
theorem claim_C7_interaction_pairs (t : List InteractionRecord)
    (ids ids2 : List Nat) (hperm : ids.Perm ids2) :
    (∀ a b : Nat, findInteraction t a b = findInteraction t b a)
    ∧ check_drug_interactions t ids
        = (allIndexPairs ids).filterMap (fun p =>
            (findInteraction t p.1 p.2).map
              fun r => ⟨r.severity, r.description, p.1, p.2⟩)
    ∧ (∀ a b : Nat,
        ((a, b) ∈ (check_drug_interactions t ids).map fun w => (w.drug1, w.drug2))
          ↔ ((a, b) ∈ allIndexPairs ids ∧ (findInteraction t a b).isSome))
    ∧ (↑((check_drug_interactions t ids).map wcontent) : Multiset (String × String × Multiset Nat))
        = ↑((check_drug_interactions t ids2).map wcontent) := by
  refine ⟨findInteraction_comm t, check_drug_interactions_eq t ids,
    fun a b => ?_, ?_⟩
  · rw [check_drug_interactions_eq]
    constructor
    · intro hmem
      rw [List.mem_map] at hmem
      obtain ⟨w, hw, hab⟩ := hmem
      rw [List.mem_filterMap] at hw
      obtain ⟨p, hp, hgp⟩ := hw
      rcases hfp : findInteraction t p.1 p.2 with _ | r
      · rw [hfp] at hgp
        exact absurd hgp (by simp)
      · rw [hfp] at hgp
        simp only [Option.map_some'] at hgp
        have hw2 := Option.some.inj hgp
        have hd1 : w.drug1 = p.1 := by rw [← hw2]
        have hd2 : w.drug2 = p.2 := by rw [← hw2]
        have hpa : p = (a, b) := by
          rw [Prod.ext_iff]
          simp only [Prod.mk.injEq] at hab
          exact ⟨by rw [← hd1, hab.1], by rw [← hd2, hab.2]⟩
        rw [hpa] at hp hfp
        exact ⟨hp, by rw [hfp]; rfl⟩
    · rintro ⟨hp, hsome⟩
      rcases hfp : findInteraction t a b with _ | r
      · rw [hfp] at hsome
        exact absurd hsome (by simp)
      · refine List.mem_map.mpr ⟨⟨r.severity, r.description, a, b⟩, ?_, rfl⟩
        refine List.mem_filterMap.mpr ⟨(a, b), hp, ?_⟩
        rw [hfp]
        rfl
  · rw [Multiset.coe_eq_coe, check_drug_interactions_eq t ids,
      check_drug_interactions_eq t ids2, List.map_filterMap,
      List.map_filterMap]
    refine filterMap_allIndexPairs_perm _ (fun a b => ?_) hperm
    rw [findInteraction_comm t a b]
    rcases findInteraction t b a with _ | r
    · rfl
    · simp only [Option.map_some']
      have h3 : ({a, b} : Multiset Nat) = {b, a} := by
        have hc := Multiset.cons_swap a b (0 : Multiset Nat)
        simpa using hc
      simp only [wcontent, h3]

/-- Witness for C7 at concrete inputs: with only `(1, 3)` recorded,
`[1, 2, 3]` and `[3, 1, 2]` report the same single unordered pair. -/
theorem claim_C7_witness :
    (↑((check_drug_interactions [⟨1, 3, "Severe", "d"⟩] [1, 2, 3]).map wcontent)
        : Multiset (String × String × Multiset Nat))
      = ↑((check_drug_interactions [⟨1, 3, "Severe", "d"⟩] [3, 1, 2]).map wcontent)
    ∧ check_drug_interactions [⟨1, 3, "Severe", "d"⟩] [1, 2, 3]
        = [⟨"Severe", "d", 1, 3⟩]
    ∧ check_drug_interactions [⟨1, 3, "Severe", "d"⟩] [3, 1, 2]
        = [⟨"Severe", "d", 3, 1⟩] :=
  ⟨(claim_C7_interaction_pairs [⟨1, 3, "Severe", "d"⟩] [1, 2, 3] [3, 1, 2]
      (by decide)).2.2.2, by decide, by decide⟩

end Clinicx
